import Mathlib

/-!
Shallow embedding of the prediction-market command engine of this repository
(`src/command.rs`, `src/settlement.rs`).

The repository's `player.rs`, `state.rs`, `error.rs` and `event.rs` are not
present under `src/`; the spec treats the pricing engine, the player-record
storage primitives and the event sink as external contracts (spec §1, §6), so
those parts are modelled from the spec and clearly marked as such below.
Everything else is a direct transcription of `command.rs` and `settlement.rs`.

Machine words (`u64`) are modelled as `Nat` with explicit `% 2 ^ 64` where the
source may wrap; the 32-bit mask `& 0xffffffff` is `% 2 ^ 32`.  A handler
returns `Option (Except Nat Unit × World μ)`: `none` models a host abort
(`require` failure or `unwrap` panic), `some (.error e, w)` a returned error
code together with the externally visible state, `some (.ok (), w)` success.
-/

/-- Modelled from the spec: `error.rs` is not under `src/`; spec §7 specifies a
closed set of numeric error codes with stable names.  The concrete values are
arbitrary but pairwise distinct, matching the names used by
`decode_error` in `src/command.rs`. -/
def ERROR_INVALID_BET_AMOUNT : Nat := 1

def ERROR_MARKET_NOT_ACTIVE : Nat := 2

def ERROR_MARKET_NOT_RESOLVED : Nat := 3

def ERROR_NO_WINNING_POSITION : Nat := 4

def ERROR_ALREADY_CLAIMED : Nat := 5

def ERROR_UNAUTHORIZED : Nat := 6

def ERROR_INSUFFICIENT_BALANCE : Nat := 7

def ERROR_MARKET_ALREADY_RESOLVED : Nat := 8

def ERROR_INVALID_MARKET_TIME : Nat := 9

def ERROR_INVALID_BET_TYPE : Nat := 10

def ERROR_PLAYER_NOT_EXIST : Nat := 11

def ERROR_PLAYER_ALREADY_EXISTS : Nat := 12

/-- The `u64` modulus. -/
def U64 : Nat := 2 ^ 64

/-- Modelled from the spec: `player.rs` is not under `src/`; spec §3 gives the
PlayerAccount record: `nonce`, `balance`, `yes_shares`, `no_shares` and the
claim flag. -/
structure PlayerData where
  nonce : Nat
  balance : Nat
  yes_shares : Nat
  no_shares : Nat
  claimed : Bool
  deriving DecidableEq, Repr

/-- Modelled from the spec: the nonce gate "fails (implementation-defined
halt) if `nonce` does not match the expected next value" and otherwise
advances it (spec §4.1).  `none` models the halt. -/
def check_and_inc_nonce (p : PlayerData) (nonce : Nat) : Option PlayerData :=
  if nonce = p.nonce then some { p with nonce := (p.nonce + 1) % U64 } else none

/-- Modelled from the spec: "Player must have spendable balance ≥ amount
(`spend_balance` fails `InsufficientBalance` otherwise) — balance is
decremented as part of this check" (spec §4.4). -/
def spend_balance (p : PlayerData) (amount : Nat) : Except Nat PlayerData :=
  if p.balance < amount then Except.error ERROR_INSUFFICIENT_BALANCE
  else Except.ok { p with balance := p.balance - amount }

/-- Modelled from the spec: unchecked `u64` balance credit (spec §4.3, §4.7). -/
def add_balance (p : PlayerData) (amount : Nat) : PlayerData :=
  { p with balance := (p.balance + amount) % U64 }

/-- Modelled from the spec: credit shares on the YES side (spec §4.4). -/
def add_yes_shares (p : PlayerData) (shares : Nat) : PlayerData :=
  { p with yes_shares := (p.yes_shares + shares) % U64 }

/-- Modelled from the spec: credit shares on the NO side (spec §4.4). -/
def add_no_shares (p : PlayerData) (shares : Nat) : PlayerData :=
  { p with no_shares := (p.no_shares + shares) % U64 }

/-- Modelled from the spec: the claim flag is "set once per resolved market;
claiming twice fails" with `AlreadyClaimed` (spec §3, §4.7). -/
def claim_winnings (p : PlayerData) : Except Nat PlayerData :=
  if p.claimed then Except.error ERROR_ALREADY_CLAIMED
  else Except.ok { p with claimed := true }

/-- A 2-word player identifier (spec §3). -/
abbrev Pid := Nat × Nat

/-- Modelled from the spec: the persistent player ledger is "an external
key-value lookup keyed by a 2-word player identifier" (spec §1), modelled here
as an association list. -/
abbrev Ledger := List (Pid × PlayerData)

/-- Modelled from the spec: `get_from_pid(identity) -> Option<Account>`
(spec §6). -/
def get_from_pid (led : Ledger) (pid : Pid) : Option PlayerData :=
  (led.find? (fun e => e.1 == pid)).map (fun e => e.2)

/-- Modelled from the spec: `store(account)` persists the in-memory record to
the ledger (spec §6): the binding for the key is replaced, or inserted if
absent. -/
def store : Ledger → Pid → PlayerData → Ledger
  | [], pid, p => [(pid, p)]
  | e :: t, pid, p => if e.1 == pid then (pid, p) :: t else e :: store t pid p

/-- A settlement entry: the 3-word payload of a withdrawal (spec §3). -/
abbrev SEntry := Nat × Nat × Nat

/-- Modelled from the spec: `state.rs` (the global state and its pricing
engine) is not under `src/`; spec §6 gives the external contract this core
relies on.  Mutating operations (`&mut self` in the source) act on an opaque
engine state `μ` and return it, possibly mutated, alongside their result;
read-only operations (`&self`) just read it.  `resolved` and
`total_fees_collected` are the market fields `src/command.rs` reads and writes
directly. -/
structure StateOps (μ : Type) where
  ensure_active : μ → Except Nat Nat × μ
  txcounter : μ → Nat
  counter : μ → Nat
  place_bet : μ → Nat → Nat → Except Nat Nat × μ
  sell_shares : μ → Nat → Nat → Except Nat Nat × μ
  resolve : μ → Bool → Except Nat Unit × μ
  calculate_payout : μ → Nat → Nat → Except Nat Nat
  can_resolve : μ → Nat → Bool
  resolved : μ → Bool
  total_fees_collected : μ → Nat
  set_total_fees_collected : μ → Nat → μ

/-- The externally visible state a command execution can touch: the opaque
global/market state, the persisted player ledger, the settlement queue and the
event sink. -/
structure World (μ : Type) where
  glob : μ
  ledger : Ledger
  settlement : List SEntry
  events : List (Nat × List Nat)
  deriving Repr

/-- The `u32` event discriminant `EVENT_BET_UPDATE`.  Modelled from the spec:
`event.rs` is not under `src/`; the concrete value is irrelevant to this
development. -/
def EVENT_BET_UPDATE : Nat := 0

/-- `SettlementInfo::append_settlement` from `src/settlement.rs`: push the
entry at the end of the queue. -/
def append_settlement (q : List SEntry) (e : SEntry) : List SEntry := q ++ [e]

/-- `SettlementInfo::settlement_size` from `src/settlement.rs`. -/
def settlement_size (q : List SEntry) : Nat := q.length

/-- `SettlementInfo::flush_settlement` from `src/settlement.rs`: serialize
every queued entry in order via the external encoder `enc`
(`WithdrawInfo::flush`), and reset the queue to empty.  Returns the bytes and
the new queue. -/
def flush_settlement (enc : SEntry → List Nat) (q : List SEntry) :
    List Nat × List SEntry :=
  ((q.map enc).flatten, [])

/-- `Activity::emit_bet_event` from `src/command.rs`; `insert_event` is
modelled from the spec as appending to the event sink (spec §1, §6). -/
def emit_bet_event (w : World μ) (player_id : Pid)
    (bet_type amount shares txid counter : Nat) : World μ :=
  { w with events := w.events ++
      [(EVENT_BET_UPDATE,
        [txid, player_id.1, player_id.2, bet_type, amount, shares, counter])] }

/-- `Activity::emit_sell_event` from `src/command.rs`: same channel as bet
events, with `sell_type + 10` as discriminant. -/
def emit_sell_event (w : World μ) (player_id : Pid)
    (sell_type shares payout txid counter : Nat) : World μ :=
  { w with events := w.events ++
      [(EVENT_BET_UPDATE,
        [txid, player_id.1, player_id.2, (sell_type + 10) % U64, shares,
         payout, counter])] }

/-- The `Activity` enum from `src/command.rs`. -/
inductive Activity where
  | Bet : Nat → Nat → Activity
  | Sell : Nat → Nat → Activity
  | Resolve : Nat → Activity
  | Claim : Activity
  | WithdrawFees : Activity
  deriving DecidableEq, Repr

/-- `Withdraw::handle` from `src/command.rs`, lines 28–45.  `d0 d1 d2` is the
3-word payload; only the low 32 bits of `d0` are the amount.
`require(balance >= amount)` failing is a host abort (`none`). -/
def Withdraw.handle (w : World μ) (pid : Pid) (nonce : Nat)
    (d0 d1 d2 : Nat) : Option (Except Nat Unit × World μ) :=
  match get_from_pid w.ledger pid with
  | none => some (Except.error ERROR_PLAYER_NOT_EXIST, w)
  | some player =>
    match check_and_inc_nonce player nonce with
    | none => none
    | some player =>
      if player.balance < d0 % 2 ^ 32 then none
      else
        some (Except.ok (),
          { w with
            settlement := append_settlement w.settlement (d0, d1, d2),
            ledger := store w.ledger pid
              { player with balance := player.balance - d0 % 2 ^ 32 } })

/-- `Deposit::handle` from `src/command.rs`, lines 52–67.  The authenticating
account is loaded with `.unwrap()`: its absence is a host abort (`none`), not
an error code.  The target is `(d0, d1)`, credited with `d2`; the target is
stored first, then the caller, exactly as in the source. -/
def Deposit.handle (w : World μ) (pid : Pid) (nonce : Nat)
    (d0 d1 d2 : Nat) : Option (Except Nat Unit × World μ) :=
  match get_from_pid w.ledger pid with
  | none => none
  | some admin =>
    match check_and_inc_nonce admin nonce with
    | none => none
    | some admin =>
      match get_from_pid w.ledger (d0, d1) with
      | none => some (Except.error ERROR_PLAYER_NOT_EXIST, w)
      | some player =>
        some (Except.ok (),
          { w with
            ledger := store
              (store w.ledger (d0, d1)
                { player with balance := (player.balance + d2) % U64 })
              pid admin })

/-- `Activity::handle_bet` from `src/command.rs`, lines 111–138. -/
def Activity.handle_bet (ops : StateOps μ) (w : World μ) (pid : Pid)
    (player : PlayerData) (bet_type amount : Nat) :
    Option (Except Nat Unit × World μ) :=
  if amount = 0 then some (Except.error ERROR_INVALID_BET_AMOUNT, w)
  else
    match ops.ensure_active w.glob with
    | (Except.error e, g) => some (Except.error e, { w with glob := g })
    | (Except.ok current_time, g) =>
      match spend_balance player amount with
      | Except.error e => some (Except.error e, { w with glob := g })
      | Except.ok player =>
        match ops.place_bet g bet_type amount with
        | (Except.error e, g2) => some (Except.error e, { w with glob := g2 })
        | (Except.ok shares, g2) =>
          some (Except.ok (),
            emit_bet_event
              { w with
                glob := g2,
                ledger := store w.ledger pid
                  (if bet_type = 1 then add_yes_shares player shares
                   else add_no_shares player shares) }
              pid bet_type amount shares (ops.txcounter g) current_time)

/-- `Activity::handle_sell` from `src/command.rs`, lines 140–178. -/
def Activity.handle_sell (ops : StateOps μ) (w : World μ) (pid : Pid)
    (player : PlayerData) (sell_type shares : Nat) :
    Option (Except Nat Unit × World μ) :=
  if shares = 0 then some (Except.error ERROR_INVALID_BET_AMOUNT, w)
  else
    match ops.ensure_active w.glob with
    | (Except.error e, g) => some (Except.error e, { w with glob := g })
    | (Except.ok current_time, g) =>
      if sell_type = 1 ∧ player.yes_shares < shares then
        some (Except.error ERROR_INSUFFICIENT_BALANCE, { w with glob := g })
      else if sell_type ≠ 1 ∧ player.no_shares < shares then
        some (Except.error ERROR_INSUFFICIENT_BALANCE, { w with glob := g })
      else
        match ops.sell_shares g sell_type shares with
        | (Except.error e, g2) => some (Except.error e, { w with glob := g2 })
        | (Except.ok payout, g2) =>
          some (Except.ok (),
            emit_sell_event
              { w with
                glob := g2,
                ledger := store w.ledger pid
                  { (if sell_type = 1 then
                      { player with yes_shares := player.yes_shares - shares }
                     else
                      { player with no_shares := player.no_shares - shares })
                    with balance := (player.balance + payout) % U64 } }
              pid sell_type shares payout (ops.txcounter g) current_time)

/-- `Activity::handle_resolve` from `src/command.rs`, lines 180–192.  The
time gate is the source's `!can_resolve(current_time) && false`, which is
identically false. -/
def Activity.handle_resolve (ops : StateOps μ) (w : World μ) (outcome : Nat) :
    Option (Except Nat Unit × World μ) :=
  if (!ops.can_resolve w.glob (ops.counter w.glob) && false) = true then
    some (Except.error ERROR_MARKET_NOT_RESOLVED, w)
  else
    match ops.resolve w.glob (outcome != 0) with
    | (Except.error e, g) => some (Except.error e, { w with glob := g })
    | (Except.ok _, g) => some (Except.ok (), { w with glob := g })

/-- `Activity::handle_claim` from `src/command.rs`, lines 194–221. -/
def Activity.handle_claim (ops : StateOps μ) (w : World μ) (pid : Pid)
    (player : PlayerData) : Option (Except Nat Unit × World μ) :=
  if ops.resolved w.glob = false then
    some (Except.error ERROR_MARKET_NOT_RESOLVED, w)
  else
    match claim_winnings player with
    | Except.error e => some (Except.error e, w)
    | Except.ok player =>
      match ops.calculate_payout w.glob player.yes_shares player.no_shares with
      | Except.error e => some (Except.error e, w)
      | Except.ok payout =>
        if payout = 0 then some (Except.error ERROR_NO_WINNING_POSITION, w)
        else
          some (Except.ok (),
            { w with ledger := store w.ledger pid (add_balance player payout) })

/-- `Activity::handle_withdraw_fees` from `src/command.rs`, lines 223–247. -/
def Activity.handle_withdraw_fees (ops : StateOps μ) (w : World μ) (pid : Pid)
    (player : PlayerData) : Option (Except Nat Unit × World μ) :=
  if ops.total_fees_collected w.glob = 0 then
    some (Except.error ERROR_NO_WINNING_POSITION, w)
  else
    some (Except.ok (),
      { w with
        glob := ops.set_total_fees_collected w.glob 0,
        ledger := store w.ledger pid
          (add_balance player (ops.total_fees_collected w.glob)) })

/-- `impl CommandHandler for Activity` from `src/command.rs`, lines 79–108:
load the authenticating account, check-and-increment the nonce in memory, then
dispatch on the activity variant. -/
def Activity.handle (ops : StateOps μ) (w : World μ) (pid : Pid) (nonce : Nat)
    (act : Activity) : Option (Except Nat Unit × World μ) :=
  match get_from_pid w.ledger pid with
  | none => some (Except.error ERROR_PLAYER_NOT_EXIST, w)
  | some player =>
    match check_and_inc_nonce player nonce with
    | none => none
    | some player =>
      match act with
      | Activity.Bet bet_type amount =>
        Activity.handle_bet ops w pid player bet_type amount
      | Activity.Sell sell_type shares =>
        Activity.handle_sell ops w pid player sell_type shares
      | Activity.Resolve outcome => Activity.handle_resolve ops w outcome
      | Activity.Claim => Activity.handle_claim ops w pid player
      | Activity.WithdrawFees => Activity.handle_withdraw_fees ops w pid player

/-- The `Command` variants of `src/command.rs` whose handlers live in `src/`
(`InstallPlayer` and `Tick` are handled outside the provided sources). -/
inductive Command where
  | activity : Activity → Command
  | withdraw : Nat → Nat → Nat → Command
  | deposit : Nat → Nat → Nat → Command
  deriving DecidableEq, Repr

/-- Dispatch of a command to its `CommandHandler` implementation. -/
def Command.handle (ops : StateOps μ) (w : World μ) (pid : Pid) (nonce : Nat) :
    Command → Option (Except Nat Unit × World μ)
  | Command.activity a => Activity.handle ops w pid nonce a
  | Command.withdraw d0 d1 d2 => Withdraw.handle w pid nonce d0 d1 d2
  | Command.deposit d0 d1 d2 => Deposit.handle w pid nonce d0 d1 d2

/-! ### Concrete fixtures for witnesses and counterexamples -/

/-- A trivial engine over the unit state, used for concrete evaluations:
market resolved, every engine call succeeds, `calculate_payout` is 0. -/
def opsU : StateOps Unit where
  ensure_active := fun g => (Except.ok 0, g)
  txcounter := fun _ => 0
  counter := fun _ => 0
  place_bet := fun g _ _ => (Except.ok 1, g)
  sell_shares := fun g _ _ => (Except.ok 1, g)
  resolve := fun g _ => (Except.ok (), g)
  calculate_payout := fun _ _ _ => Except.ok 0
  can_resolve := fun _ _ => true
  resolved := fun _ => true
  total_fees_collected := fun _ => 0
  set_total_fees_collected := fun g _ => g

/-- The empty world: no players, no settlement entries, no events. -/
def w0 : World Unit := { glob := (), ledger := [], settlement := [], events := [] }

/-- A fresh player holding 3 YES shares, nonce 0, unclaimed. -/
def pC : PlayerData :=
  { nonce := 0, balance := 0, yes_shares := 3, no_shares := 0, claimed := false }

/-- A world whose only account is `pC` at pid `(1, 1)`. -/
def wC : World Unit := { glob := (), ledger := [((1, 1), pC)], settlement := [], events := [] }

/-- A funded player: balance 10, 2 YES shares, 2 NO shares, nonce 0. -/
def pW : PlayerData :=
  { nonce := 0, balance := 10, yes_shares := 2, no_shares := 2, claimed := false }

/-- A world whose only account is `pW` at pid `(0, 0)`. -/
def wW : World Unit := { glob := (), ledger := [((0, 0), pW)], settlement := [], events := [] }

/-! ### Helper lemmas -/

/-- Looking up a key right after storing it returns the stored record. -/
theorem get_from_pid_store (l : Ledger) (pid : Pid) (x : PlayerData) :
    get_from_pid (store l pid x) pid = some x := by
  induction l with
  | nil => simp [store, get_from_pid]
  | cons e t ih =>
    by_cases h : e.1 == pid
    · simp [store, h, get_from_pid]
    · simpa [store, h, get_from_pid] using ih

/-- `handle_bet` persists nothing to the ledger on any returned error. -/
theorem handle_bet_error_ledger {μ : Type} (ops : StateOps μ) (w : World μ)
    (pid : Pid) (p : PlayerData) (bt a e : Nat) (w' : World μ)
    (h : Activity.handle_bet ops w pid p bt a = some (Except.error e, w')) :
    w'.ledger = w.ledger := by
  unfold Activity.handle_bet at h
  repeat' split at h
  all_goals
    first
      | exact Option.noConfusion h
      | (injection h with h1
         injection h1 with h2 h3
         first
           | exact Except.noConfusion h2
           | rw [← h3])

/-- `handle_sell` persists nothing to the ledger on any returned error. -/
theorem handle_sell_error_ledger {μ : Type} (ops : StateOps μ) (w : World μ)
    (pid : Pid) (p : PlayerData) (st s e : Nat) (w' : World μ)
    (h : Activity.handle_sell ops w pid p st s = some (Except.error e, w')) :
    w'.ledger = w.ledger := by
  unfold Activity.handle_sell at h
  repeat' split at h
  all_goals
    first
      | exact Option.noConfusion h
      | (injection h with h1
         injection h1 with h2 h3
         first
           | exact Except.noConfusion h2
           | rw [← h3])

/-- `handle_resolve` persists nothing to the ledger on any returned error. -/
theorem handle_resolve_error_ledger {μ : Type} (ops : StateOps μ) (w : World μ)
    (o e : Nat) (w' : World μ)
    (h : Activity.handle_resolve ops w o = some (Except.error e, w')) :
    w'.ledger = w.ledger := by
  unfold Activity.handle_resolve at h
  repeat' split at h
  all_goals
    first
      | exact Option.noConfusion h
      | (injection h with h1
         injection h1 with h2 h3
         first
           | exact Except.noConfusion h2
           | rw [← h3])

/-- `handle_claim` persists nothing to the ledger on any returned error. -/
theorem handle_claim_error_ledger {μ : Type} (ops : StateOps μ) (w : World μ)
    (pid : Pid) (p : PlayerData) (e : Nat) (w' : World μ)
    (h : Activity.handle_claim ops w pid p = some (Except.error e, w')) :
    w'.ledger = w.ledger := by
  unfold Activity.handle_claim at h
  repeat' split at h
  all_goals
    first
      | exact Option.noConfusion h
      | (injection h with h1
         injection h1 with h2 h3
         first
           | exact Except.noConfusion h2
           | rw [← h3])

/-- `handle_withdraw_fees` persists nothing to the ledger on any returned
error. -/
theorem handle_withdraw_fees_error_ledger {μ : Type} (ops : StateOps μ)
    (w : World μ) (pid : Pid) (p : PlayerData) (e : Nat) (w' : World μ)
    (h : Activity.handle_withdraw_fees ops w pid p = some (Except.error e, w')) :
    w'.ledger = w.ledger := by
  unfold Activity.handle_withdraw_fees at h
  repeat' split at h
  all_goals
    first
      | exact Option.noConfusion h
      | (injection h with h1
         injection h1 with h2 h3
         first
           | exact Except.noConfusion h2
           | rw [← h3])

/-- `Activity::handle` persists nothing to the ledger on any returned error. -/
theorem activity_handle_error_ledger {μ : Type} (ops : StateOps μ)
    (w : World μ) (pid : Pid) (nonce : Nat) (act : Activity) (e : Nat)
    (w' : World μ)
    (h : Activity.handle ops w pid nonce act = some (Except.error e, w')) :
    w'.ledger = w.ledger := by
  unfold Activity.handle at h
  split at h
  · simp_all
  · split at h
    · exact absurd h (by simp)
    · cases act with
      | Bet bt a => exact handle_bet_error_ledger ops w pid _ bt a e w' h
      | Sell st s => exact handle_sell_error_ledger ops w pid _ st s e w' h
      | Resolve o => exact handle_resolve_error_ledger ops w o e w' h
      | Claim => exact handle_claim_error_ledger ops w pid _ e w' h
      | WithdrawFees => exact handle_withdraw_fees_error_ledger ops w pid _ e w' h

/-- `Withdraw::handle` persists nothing to the ledger on any returned error. -/
theorem withdraw_handle_error_ledger {μ : Type} (w : World μ) (pid : Pid)
    (nonce d0 d1 d2 e : Nat) (w' : World μ)
    (h : Withdraw.handle w pid nonce d0 d1 d2 = some (Except.error e, w')) :
    w'.ledger = w.ledger := by
  unfold Withdraw.handle at h
  repeat' split at h
  all_goals
    first
      | exact Option.noConfusion h
      | (injection h with h1
         injection h1 with h2 h3
         first
           | exact Except.noConfusion h2
           | rw [← h3])

/-- `Deposit::handle` persists nothing to the ledger on any returned error. -/
theorem deposit_handle_error_ledger {μ : Type} (w : World μ) (pid : Pid)
    (nonce d0 d1 d2 e : Nat) (w' : World μ)
    (h : Deposit.handle w pid nonce d0 d1 d2 = some (Except.error e, w')) :
    w'.ledger = w.ledger := by
  unfold Deposit.handle at h
  repeat' split at h
  all_goals
    first
      | exact Option.noConfusion h
      | (injection h with h1
         injection h1 with h2 h3
         first
           | exact Except.noConfusion h2
           | rw [← h3])

/-! ### C1 -/

/-- C1: for every command (Withdraw, Deposit, every Activity variant) whose
handler returns an error, the persisted player ledger — and so the player's
account record, nonce included — is unchanged: the nonce is advanced only in
memory before dispatch and `store()` runs only on success paths. -/
theorem c1_command_error_leaves_ledger_unchanged {μ : Type} (ops : StateOps μ)
    (w : World μ) (pid : Pid) (nonce : Nat) (cmd : Command) (e : Nat)
    (w' : World μ)
    (h : Command.handle ops w pid nonce cmd = some (Except.error e, w')) :
    w'.ledger = w.ledger := by
  cases cmd with
  | activity a => exact activity_handle_error_ledger ops w pid nonce a e w' h
  | withdraw d0 d1 d2 => exact withdraw_handle_error_ledger w pid nonce d0 d1 d2 e w' h
  | deposit d0 d1 d2 => exact deposit_handle_error_ledger w pid nonce d0 d1 d2 e w' h

/-- C1 witness: a concrete failing command (Claim by a non-existent player)
satisfies the hypothesis of `c1_command_error_leaves_ledger_unchanged`, and
the theorem applies. -/
theorem c1_witness : (w0 : World Unit).ledger = w0.ledger :=
  c1_command_error_leaves_ledger_unchanged opsU w0 (0, 0) 0
    (Command.activity Activity.Claim) ERROR_PLAYER_NOT_EXIST w0 rfl

/-! ### C2 -/

/-- C2 counterexample: with the caller `pW` present at `(0, 0)` (persisted
nonce 0) and target `(5, 5)` absent, `Deposit::handle` returns
`PlayerNotExist` and the resulting world is exactly the input world: the
caller account was NOT stored (its persisted nonce is still 0, whereas a
store after `check_and_inc_nonce` would have persisted nonce 1).  This
refutes "the caller account is stored even when the target lookup fails". -/
theorem c2_deposit_caller_not_stored_cex :
    Deposit.handle wW (0, 0) 0 5 5 100
      = some (Except.error ERROR_PLAYER_NOT_EXIST, wW) ∧
    (get_from_pid wW.ledger (0, 0)).map PlayerData.nonce = some 0 ∧
    (get_from_pid wW.ledger (0, 0)).map PlayerData.nonce ≠ some 1 := by
  refine ⟨rfl, rfl, ?_⟩
  decide

/-- C2 amended: in the Deposit handler the caller's nonce is checked and
incremented in memory, but the caller account is persisted only on the
success path; when the target lookup fails the handler returns
`PlayerNotExist` and nothing — the caller account included — is persisted. -/
theorem c2_deposit_target_missing_no_persist {μ : Type} (w : World μ)
    (pid : Pid) (nonce d0 d1 d2 : Nat) (a : PlayerData)
    (ha : get_from_pid w.ledger pid = some a) (hn : nonce = a.nonce)
    (ht : get_from_pid w.ledger (d0, d1) = none) :
    Deposit.handle w pid nonce d0 d1 d2
      = some (Except.error ERROR_PLAYER_NOT_EXIST, w) := by
  unfold Deposit.handle
  rw [ha, ht]
  simp [check_and_inc_nonce, hn]

/-- C2 amended witness: the amended theorem applied at the concrete
counterexample input. -/
theorem c2_deposit_target_missing_no_persist_witness :
    Deposit.handle wW (0, 0) 0 5 5 100
      = some (Except.error ERROR_PLAYER_NOT_EXIST, wW) :=
  c2_deposit_target_missing_no_persist wW (0, 0) 0 5 5 100 pW rfl rfl rfl

/-! ### C4 -/

/-- C4 counterexample: on the empty world, `Deposit::handle` with the absent
authenticating identity `(9, 9)` evaluates to `none` — the `.unwrap()` host
abort — and not to the returned error code `PlayerNotExist` the claim
requires of every command. -/
theorem c4_deposit_missing_caller_aborts_cex :
    Deposit.handle w0 (9, 9) 0 0 0 0
      = (none : Option (Except Nat Unit × World Unit)) ∧
    (none : Option (Except Nat Unit × World Unit))
      ≠ some (Except.error ERROR_PLAYER_NOT_EXIST, w0) := by
  exact ⟨rfl, by simp⟩

/-- C4 amended: when the PlayerAccount for the authenticating identity is
absent, `Withdraw::handle` and `Activity::handle` fail with `PlayerNotExist`,
but `Deposit::handle` aborts in the host (`unwrap` panic); Deposit returns
`PlayerNotExist` only for an absent target. -/
theorem c4_missing_player_behaviour {μ : Type} (ops : StateOps μ)
    (w : World μ) (pid : Pid) (nonce : Nat)
    (h : get_from_pid w.ledger pid = none) :
    (∀ d0 d1 d2, Withdraw.handle w pid nonce d0 d1 d2
        = some (Except.error ERROR_PLAYER_NOT_EXIST, w)) ∧
    (∀ act, Activity.handle ops w pid nonce act
        = some (Except.error ERROR_PLAYER_NOT_EXIST, w)) ∧
    (∀ d0 d1 d2, Deposit.handle w pid nonce d0 d1 d2 = none) := by
  refine ⟨fun d0 d1 d2 => ?_, fun act => ?_, fun d0 d1 d2 => ?_⟩
  · unfold Withdraw.handle
    rw [h]
  · unfold Activity.handle
    rw [h]
  · unfold Deposit.handle
    rw [h]

/-- C4 amended witness: the amended theorem applied on the empty world. -/
theorem c4_missing_player_behaviour_witness :
    Withdraw.handle w0 (9, 9) 0 1 2 3
      = some (Except.error ERROR_PLAYER_NOT_EXIST, w0) :=
  (c4_missing_player_behaviour opsU w0 (9, 9) 0 rfl).1 1 2 3

/-! ### C3 -/

/-- C3 counterexample: on the resolved market `wC` (engine payout 0), the
unclaimed player `(1, 1)` issues Claim; it fails `NoWinningPosition` and the
post-state is exactly `wC` — the claimed flag set by `claim_winnings` lives
only in the discarded in-memory copy.  Running Claim again on that post-state
(persisted nonce still 0) therefore fails `NoWinningPosition` once more, not
`AlreadyClaimed`, refuting "a second Claim by the same player fails with
AlreadyClaimed regardless of payout value". -/
theorem c3_claim_twice_zero_payout_cex :
    (Activity.handle opsU wC (1, 1) 0 Activity.Claim).map
        (fun r => (r.1, Activity.handle opsU r.2 (1, 1) 0 Activity.Claim))
      = some (Except.error ERROR_NO_WINNING_POSITION,
          some (Except.error ERROR_NO_WINNING_POSITION, wC)) ∧
    ERROR_NO_WINNING_POSITION ≠ ERROR_ALREADY_CLAIMED := by
  exact ⟨rfl, by decide⟩

/-- C3 amended: on a resolved market, a Claim whose `calculate_payout` is 0
fails `NoWinningPosition` and persists nothing — the claimed flag is set only
in the discarded in-memory copy, so the world is unchanged and a repeated
Claim fails `NoWinningPosition` again; `AlreadyClaimed` is returned exactly
when the player's persisted claimed flag is already set (i.e. after a prior
successful claim). -/
theorem c3_claim_zero_payout_not_single_use {μ : Type} (ops : StateOps μ)
    (w : World μ) (pid : Pid) (nonce : Nat) (p : PlayerData)
    (hp : get_from_pid w.ledger pid = some p) (hn : nonce = p.nonce)
    (hr : ops.resolved w.glob = true) :
    (p.claimed = false →
      ops.calculate_payout w.glob p.yes_shares p.no_shares = Except.ok 0 →
      Activity.handle ops w pid nonce Activity.Claim
        = some (Except.error ERROR_NO_WINNING_POSITION, w)) ∧
    (p.claimed = true →
      Activity.handle ops w pid nonce Activity.Claim
        = some (Except.error ERROR_ALREADY_CLAIMED, w)) := by
  constructor
  · intro hc hpay
    unfold Activity.handle
    rw [hp]
    simp [check_and_inc_nonce, hn, Activity.handle_claim, hr, claim_winnings,
      hc, hpay]
  · intro hc
    unfold Activity.handle
    rw [hp]
    simp [check_and_inc_nonce, hn, Activity.handle_claim, hr, claim_winnings,
      hc]

/-- C3 amended witness: the amended theorem applied at the concrete input of
the counterexample. -/
theorem c3_claim_zero_payout_not_single_use_witness :
    Activity.handle opsU wC (1, 1) 0 Activity.Claim
      = some (Except.error ERROR_NO_WINNING_POSITION, wC) :=
  (c3_claim_zero_payout_not_single_use opsU wC (1, 1) 0 pC rfl rfl rfl).1
    rfl rfl

/-! ### C5 -/

/-- C5: for an existing authenticating player with a matching nonce,
`Withdraw::handle` with balance ≥ the masked amount `d0 % 2 ^ 32` succeeds:
the persisted balance decreases by exactly the masked amount, the nonce
advance is persisted, and exactly one settlement entry `(d0, d1, d2)` is
appended verbatim (high bits of `d0` preserved).  With balance below the
masked amount the handler evaluates to `none`: the fatal `require` host
abort, not a returned error code. -/
theorem c5_withdraw_spec {μ : Type} (w : World μ) (pid : Pid)
    (nonce d0 d1 d2 : Nat) (p : PlayerData)
    (hp : get_from_pid w.ledger pid = some p) (hn : nonce = p.nonce) :
    (d0 % 2 ^ 32 ≤ p.balance →
      Withdraw.handle w pid nonce d0 d1 d2
        = some (Except.ok (),
            { w with
              settlement := w.settlement ++ [(d0, d1, d2)],
              ledger := store w.ledger pid
                { p with
                  nonce := (p.nonce + 1) % U64,
                  balance := p.balance - d0 % 2 ^ 32 } })) ∧
    (p.balance < d0 % 2 ^ 32 →
      Withdraw.handle w pid nonce d0 d1 d2 = none) := by
  constructor
  · intro hb
    unfold Withdraw.handle
    rw [hp]
    simp [check_and_inc_nonce, hn, Nat.not_lt.mpr hb, append_settlement]
    omega
  · intro hb
    unfold Withdraw.handle
    rw [hp]
    simp [check_and_inc_nonce, hn, hb]
    omega

/-- C5 witness: the player `pW` (balance 10) withdraws the packed amount
`2 ^ 33 + 4`, whose masked low 32 bits are 4: balance 10 → 6, nonce 0 → 1,
and the settlement entry keeps the packed word `2 ^ 33 + 4` verbatim. -/
theorem c5_withdraw_spec_witness :
    Withdraw.handle wW (0, 0) 0 (2 ^ 33 + 4) 7 8
      = some (Except.ok (),
          { wW with
            settlement := wW.settlement ++ [(2 ^ 33 + 4, 7, 8)],
            ledger := store wW.ledger (0, 0)
              { pW with
                nonce := (pW.nonce + 1) % U64,
                balance := pW.balance - (2 ^ 33 + 4) % 2 ^ 32 } }) :=
  (c5_withdraw_spec wW (0, 0) 0 (2 ^ 33 + 4) 7 8 pW rfl rfl).1 (by decide)

/-! ### C6 -/

/-- C6: for an existing player with a matching nonce, Resolve never fails on
the time gate — the source's `!can_resolve(current_time) && false` is
identically false, whatever `can_resolve` returns — and the handler's result
is exactly the engine's `resolve(outcome != 0)` result, errors (e.g.
`MarketAlreadyResolved`) propagated verbatim. -/
theorem c6_resolve_gate_disabled {μ : Type} (ops : StateOps μ) (w : World μ)
    (pid : Pid) (nonce outcome : Nat) (p : PlayerData)
    (hp : get_from_pid w.ledger pid = some p) (hn : nonce = p.nonce) :
    Activity.handle ops w pid nonce (Activity.Resolve outcome)
      = match ops.resolve w.glob (outcome != 0) with
        | (Except.error e, g) => some (Except.error e, { w with glob := g })
        | (Except.ok _, g) => some (Except.ok (), { w with glob := g }) := by
  unfold Activity.handle
  rw [hp]
  simp [check_and_inc_nonce, hn, Activity.handle_resolve]

/-- C6 witness: with the trivial engine (whose `resolve` always succeeds and
whose `can_resolve` is `true`), Resolve on the empty-market world `wC`
succeeds. -/
theorem c6_resolve_gate_disabled_witness :
    Activity.handle opsU wC (1, 1) 0 (Activity.Resolve 7)
      = some (Except.ok (), wC) :=
  c6_resolve_gate_disabled opsU wC (1, 1) 0 7 pC rfl rfl

/-! ### C7 -/

/-- A batch of `append_settlement` calls, one entry at a time, in order. -/
def appendAll (q : List SEntry) (es : List SEntry) : List SEntry :=
  es.foldl append_settlement q

/-- Appending a batch amounts to list concatenation. -/
theorem appendAll_eq (es q : List SEntry) : appendAll q es = q ++ es := by
  induction es generalizing q with
  | nil => simp [appendAll]
  | cons e t ih =>
    have hstep : appendAll q (e :: t) = appendAll (q ++ [e]) t := rfl
    rw [hstep, ih]
    simp

/-- C7: whatever was flushed before, appending a batch of entries to the
emptied queue and flushing returns exactly the encodings of those entries,
each once, in order; the flush empties the queue (`settlement_size` 0) as one
operation, and an immediately subsequent flush returns an empty buffer. -/
theorem c7_flush_settlement_spec (enc : SEntry → List Nat)
    (q es : List SEntry) :
    flush_settlement enc (appendAll (flush_settlement enc q).2 es)
      = ((es.map enc).flatten, []) ∧
    settlement_size
      (flush_settlement enc (appendAll (flush_settlement enc q).2 es)).2 = 0 ∧
    flush_settlement enc
      (flush_settlement enc (appendAll (flush_settlement enc q).2 es)).2
      = ([], []) := by
  refine ⟨?_, rfl, rfl⟩
  have hq : (flush_settlement enc q).2 = [] := rfl
  rw [hq, appendAll_eq]
  simp [flush_settlement]

/-! ### C8 -/

/-- C8: on an active market (`ensure_active` succeeds), a Sell of a nonzero
`shares` by a player whose matching side (`yes_shares` if `sell_type = 1`,
`no_shares` otherwise) holds strictly fewer than `shares` fails with
`InsufficientBalance`, and the persisted ledger — shares and balance — is
unchanged. -/
theorem c8_sell_insufficient_shares {μ : Type} (ops : StateOps μ)
    (w : World μ) (pid : Pid) (nonce sell_type shares : Nat) (p : PlayerData)
    (t : Nat) (g : μ)
    (hp : get_from_pid w.ledger pid = some p) (hn : nonce = p.nonce)
    (hs : shares ≠ 0)
    (ha : ops.ensure_active w.glob = (Except.ok t, g))
    (hins : (if sell_type = 1 then p.yes_shares else p.no_shares) < shares) :
    Activity.handle ops w pid nonce (Activity.Sell sell_type shares)
      = some (Except.error ERROR_INSUFFICIENT_BALANCE, { w with glob := g }) ∧
    ({ w with glob := g } : World μ).ledger = w.ledger := by
  refine ⟨?_, rfl⟩
  unfold Activity.handle
  rw [hp]
  by_cases hst : sell_type = 1
  · have hins2 : p.yes_shares < shares := by simpa [hst] using hins
    simp [check_and_inc_nonce, hn, Activity.handle_sell, hs, ha, hst, hins2]
  · have hins2 : p.no_shares < shares := by simpa [hst] using hins
    simp [check_and_inc_nonce, hn, Activity.handle_sell, hs, ha, hst, hins2]

/-- C8 witness: `pW` holds 2 YES shares and tries `Sell(1, 3)` on the active
trivial market; it fails `InsufficientBalance` and the ledger is unchanged. -/
theorem c8_sell_insufficient_shares_witness :
    Activity.handle opsU wW (0, 0) 0 (Activity.Sell 1 3)
      = some (Except.error ERROR_INSUFFICIENT_BALANCE, { wW with glob := () }) ∧
    ({ wW with glob := () } : World Unit).ledger = wW.ledger :=
  c8_sell_insufficient_shares opsU wW (0, 0) 0 1 3 pW 0 () rfl rfl
    (by decide) rfl (by decide)

/-! ### C9 -/

/-- C9: for an existing player with a matching nonce, `Bet` with amount 0 and
`Sell` with shares 0 fail with `InvalidBetAmount` before touching anything:
the whole world — ledger, market state, settlement queue and events — is
returned unchanged. -/
theorem c9_zero_amount_rejected {μ : Type} (ops : StateOps μ) (w : World μ)
    (pid : Pid) (nonce bt st : Nat) (p : PlayerData)
    (hp : get_from_pid w.ledger pid = some p) (hn : nonce = p.nonce) :
    Activity.handle ops w pid nonce (Activity.Bet bt 0)
      = some (Except.error ERROR_INVALID_BET_AMOUNT, w) ∧
    Activity.handle ops w pid nonce (Activity.Sell st 0)
      = some (Except.error ERROR_INVALID_BET_AMOUNT, w) := by
  constructor <;>
    · unfold Activity.handle
      rw [hp]
      simp [check_and_inc_nonce, hn, Activity.handle_bet, Activity.handle_sell]

/-- C9 witness: a zero-amount Bet by `pW` on the trivial market fails
`InvalidBetAmount` with the world unchanged. -/
theorem c9_zero_amount_rejected_witness :
    Activity.handle opsU wW (0, 0) 0 (Activity.Bet 1 0)
      = some (Except.error ERROR_INVALID_BET_AMOUNT, wW) :=
  (c9_zero_amount_rejected opsU wW (0, 0) 0 1 1 pW rfl rfl).1

/-! ### C10 -/

/-- A `spend_balance` failure carries exactly `InsufficientBalance`. -/
theorem spend_balance_error (p : PlayerData) (a e : Nat)
    (h : spend_balance p a = Except.error e) :
    e = ERROR_INSUFFICIENT_BALANCE := by
  unfold spend_balance at h
  split at h
  · exact (Except.error.inj h).symm
  · exact Except.noConfusion h

/-- A `spend_balance` success decrements the balance by the amount. -/
theorem spend_balance_ok (p : PlayerData) (a : Nat) (q : PlayerData)
    (h : spend_balance p a = Except.ok q) :
    q = { p with balance := p.balance - a } := by
  unfold spend_balance at h
  split at h
  · exact Except.noConfusion h
  · exact (Except.ok.inj h).symm

/-- Every error `handle_bet` can return is the zero-amount rejection, an
`ensure_active` error, the `spend_balance` insufficiency, or a `place_bet`
error: the handler itself validates no bet type. -/
theorem handle_bet_error_cases {μ : Type} (ops : StateOps μ) (w : World μ)
    (pid : Pid) (p : PlayerData) (bt a e : Nat) (w' : World μ)
    (h : Activity.handle_bet ops w pid p bt a = some (Except.error e, w')) :
    e = ERROR_INVALID_BET_AMOUNT ∨
    (ops.ensure_active w.glob).1 = Except.error e ∨
    e = ERROR_INSUFFICIENT_BALANCE ∨
    (∃ g, (ops.place_bet g bt a).1 = Except.error e) := by
  unfold Activity.handle_bet at h
  repeat' split at h
  · exact Or.inl (Except.error.inj (Prod.ext_iff.mp (Option.some.inj h)).1).symm
  · rename_i x e1 g1 heq
    refine Or.inr (Or.inl ?_)
    have h1 : e1 = e := Except.error.inj (Prod.ext_iff.mp (Option.some.inj h)).1
    rw [heq, h1]
  · rename_i x1 t g1 heq1 x2 e1 heq2
    have h1 : e1 = e := Except.error.inj (Prod.ext_iff.mp (Option.some.inj h)).1
    exact Or.inr (Or.inr (Or.inl (h1 ▸ spend_balance_error _ _ _ heq2)))
  · rename_i x1 t g1 heq1 x2 p2 heq2 x3 e1 g2 heq3
    have h1 : e1 = e := Except.error.inj (Prod.ext_iff.mp (Option.some.inj h)).1
    exact Or.inr (Or.inr (Or.inr ⟨g1, by rw [heq3, h1]⟩))
  · exact Except.noConfusion (Prod.ext_iff.mp (Option.some.inj h)).1
  · exact Except.noConfusion (Prod.ext_iff.mp (Option.some.inj h)).1

/-- Every error `handle_sell` can return is the zero-shares rejection, an
`ensure_active` error, the matching-side insufficiency, or a `sell_shares`
error: the handler itself validates no sell type. -/
theorem handle_sell_error_cases {μ : Type} (ops : StateOps μ) (w : World μ)
    (pid : Pid) (p : PlayerData) (st s e : Nat) (w' : World μ)
    (h : Activity.handle_sell ops w pid p st s = some (Except.error e, w')) :
    e = ERROR_INVALID_BET_AMOUNT ∨
    (ops.ensure_active w.glob).1 = Except.error e ∨
    e = ERROR_INSUFFICIENT_BALANCE ∨
    (∃ g, (ops.sell_shares g st s).1 = Except.error e) := by
  unfold Activity.handle_sell at h
  repeat' split at h
  all_goals
    try exact Except.noConfusion (Prod.ext_iff.mp (Option.some.inj h)).1
  · exact Or.inl (Except.error.inj (Prod.ext_iff.mp (Option.some.inj h)).1).symm
  · rename_i x e1 g1 heq
    refine Or.inr (Or.inl ?_)
    have h1 : e1 = e := Except.error.inj (Prod.ext_iff.mp (Option.some.inj h)).1
    rw [heq, h1]
  · exact Or.inr (Or.inr (Or.inl
      (Except.error.inj (Prod.ext_iff.mp (Option.some.inj h)).1).symm))
  · exact Or.inr (Or.inr (Or.inl
      (Except.error.inj (Prod.ext_iff.mp (Option.some.inj h)).1).symm))
  · rename_i x1 t g1 heq1 hc1 hc2 x2 e1 g2 heq2
    have h1 : e1 = e := Except.error.inj (Prod.ext_iff.mp (Option.some.inj h)).1
    exact Or.inr (Or.inr (Or.inr ⟨g1, by rw [heq2, h1]⟩))

/-- A successful `handle_bet` with a bet type other than 1 credits the bought
shares to `no_shares` (YES side untouched) in the persisted record. -/
theorem handle_bet_ok_no_side {μ : Type} (ops : StateOps μ) (w : World μ)
    (pid : Pid) (p : PlayerData) (bt amount : Nat) (w' : World μ)
    (hbt : bt ≠ 1)
    (h : Activity.handle_bet ops w pid p bt amount = some (Except.ok (), w')) :
    ∃ t g1 shares g2,
      ops.ensure_active w.glob = (Except.ok t, g1) ∧
      ops.place_bet g1 bt amount = (Except.ok shares, g2) ∧
      w'.ledger = store w.ledger pid
        { p with
          balance := p.balance - amount,
          no_shares := (p.no_shares + shares) % U64 } := by
  unfold Activity.handle_bet at h
  repeat' split at h
  all_goals
    try exact Except.noConfusion (Prod.ext_iff.mp (Option.some.inj h)).1
  rename_i x1 t g1 heq1 x2 p2 heq2 x3 shares g2 heq3
  refine ⟨t, g1, shares, g2, heq1, heq3, ?_⟩
  simp only [Option.some.injEq, Prod.mk.injEq] at h
  rw [← h.2]
  have h5 := spend_balance_ok p amount p2 heq2
  subst h5
  simp [emit_bet_event, add_no_shares, hbt]

/-- A successful `handle_sell` with a sell type other than 1 checks and
decrements `no_shares` (YES side untouched) in the persisted record. -/
theorem handle_sell_ok_no_side {μ : Type} (ops : StateOps μ) (w : World μ)
    (pid : Pid) (p : PlayerData) (st s : Nat) (w' : World μ)
    (hst : st ≠ 1)
    (h : Activity.handle_sell ops w pid p st s = some (Except.ok (), w')) :
    ∃ t g1 payout g2,
      ops.ensure_active w.glob = (Except.ok t, g1) ∧
      ops.sell_shares g1 st s = (Except.ok payout, g2) ∧
      s ≤ p.no_shares ∧
      w'.ledger = store w.ledger pid
        { p with
          balance := (p.balance + payout) % U64,
          no_shares := p.no_shares - s } := by
  unfold Activity.handle_sell at h
  repeat' split at h
  all_goals
    try exact Except.noConfusion (Prod.ext_iff.mp (Option.some.inj h)).1
  rename_i x1 t g1 heq1 hc1 hc2 x2 payout g2 heq2
  refine ⟨t, g1, payout, g2, heq1, heq2,
    Nat.not_lt.mp (fun hlt => hc2 ⟨hst, hlt⟩), ?_⟩
  simp only [Option.some.injEq, Prod.mk.injEq] at h
  rw [← h.2]
  simp [emit_sell_event, hst]

/-- C10: for every type value other than 1, Bet credits purchased shares to
`no_shares` and Sell checks and decrements `no_shares`; and the handlers never
return `InvalidBetType` of their own — for an engine that never returns it
(modelled from the spec: `state.rs` is not under `src/`, and spec §4.4/§4.5
read "`bet_type ∈ {1 = YES, other = NO}`", every type value accepted), no Bet
or Sell outcome carries `InvalidBetType`. -/
theorem c10_bet_sell_any_type_is_no_side {μ : Type} (ops : StateOps μ)
    (hea : ∀ g, (ops.ensure_active g).1 ≠ Except.error ERROR_INVALID_BET_TYPE)
    (hpb : ∀ g bt a, (ops.place_bet g bt a).1 ≠ Except.error ERROR_INVALID_BET_TYPE)
    (hss : ∀ g st s, (ops.sell_shares g st s).1 ≠ Except.error ERROR_INVALID_BET_TYPE)
    (w : World μ) (pid : Pid) (nonce bt amount : Nat) (p : PlayerData)
    (hp : get_from_pid w.ledger pid = some p) (hn : nonce = p.nonce)
    (hbt : bt ≠ 1) :
    (∀ e w', Activity.handle ops w pid nonce (Activity.Bet bt amount)
        = some (Except.error e, w') → e ≠ ERROR_INVALID_BET_TYPE) ∧
    (∀ e w', Activity.handle ops w pid nonce (Activity.Sell bt amount)
        = some (Except.error e, w') → e ≠ ERROR_INVALID_BET_TYPE) ∧
    (∀ w', Activity.handle ops w pid nonce (Activity.Bet bt amount)
        = some (Except.ok (), w') →
      ∃ t g1 shares g2,
        ops.ensure_active w.glob = (Except.ok t, g1) ∧
        ops.place_bet g1 bt amount = (Except.ok shares, g2) ∧
        get_from_pid w'.ledger pid = some
          { p with
            nonce := (p.nonce + 1) % U64,
            balance := p.balance - amount,
            no_shares := (p.no_shares + shares) % U64 }) ∧
    (∀ w', Activity.handle ops w pid nonce (Activity.Sell bt amount)
        = some (Except.ok (), w') →
      ∃ t g1 payout g2,
        ops.ensure_active w.glob = (Except.ok t, g1) ∧
        ops.sell_shares g1 bt amount = (Except.ok payout, g2) ∧
        amount ≤ p.no_shares ∧
        get_from_pid w'.ledger pid = some
          { p with
            nonce := (p.nonce + 1) % U64,
            balance := (p.balance + payout) % U64,
            no_shares := p.no_shares - amount }) := by
  have hcn : check_and_inc_nonce p nonce
      = some { p with nonce := (p.nonce + 1) % U64 } := by
    simp [check_and_inc_nonce, hn]
  refine ⟨?_, ?_, ?_, ?_⟩
  · intro e w' hrun heq
    unfold Activity.handle at hrun
    rw [hp] at hrun
    simp only [hcn] at hrun
    rcases handle_bet_error_cases ops w pid _ bt amount e w' hrun with
      h1 | h1 | h1 | ⟨g, h1⟩
    · exact absurd (h1 ▸ heq) (by decide)
    · rw [heq] at h1
      exact hea w.glob h1
    · exact absurd (h1 ▸ heq) (by decide)
    · rw [heq] at h1
      exact hpb g bt amount h1
  · intro e w' hrun heq
    unfold Activity.handle at hrun
    rw [hp] at hrun
    simp only [hcn] at hrun
    rcases handle_sell_error_cases ops w pid _ bt amount e w' hrun with
      h1 | h1 | h1 | ⟨g, h1⟩
    · exact absurd (h1 ▸ heq) (by decide)
    · rw [heq] at h1
      exact hea w.glob h1
    · exact absurd (h1 ▸ heq) (by decide)
    · rw [heq] at h1
      exact hss g bt amount h1
  · intro w' hrun
    unfold Activity.handle at hrun
    rw [hp] at hrun
    simp only [hcn] at hrun
    obtain ⟨t, g1, shares, g2, h1, h2, h3⟩ :=
      handle_bet_ok_no_side ops w pid _ bt amount w' hbt hrun
    refine ⟨t, g1, shares, g2, h1, h2, ?_⟩
    rw [h3, get_from_pid_store]
  · intro w' hrun
    unfold Activity.handle at hrun
    rw [hp] at hrun
    simp only [hcn] at hrun
    obtain ⟨t, g1, payout, g2, h1, h2, h3, h4⟩ :=
      handle_sell_ok_no_side ops w pid _ bt amount w' hbt hrun
    refine ⟨t, g1, payout, g2, h1, h2, h3, ?_⟩
    rw [h4, get_from_pid_store]

/-- C10 witness: with the trivial engine (which never returns
`InvalidBetType`), the player `pW` bets `Bet(0, 100)` with balance 10: the
handler fails with `InsufficientBalance`, which indeed differs from
`InvalidBetType`. -/
theorem c10_bet_sell_any_type_is_no_side_witness :
    ERROR_INSUFFICIENT_BALANCE ≠ ERROR_INVALID_BET_TYPE :=
  (c10_bet_sell_any_type_is_no_side opsU
      (fun g => by simp [opsU]) (fun g bt a => by simp [opsU])
      (fun g st s => by simp [opsU])
      wW (0, 0) 0 0 100 pW rfl rfl (by decide)).1
    ERROR_INSUFFICIENT_BALANCE { wW with glob := () } rfl
